import Mathlib

/-!
Shallow embedding of `dunv/concurrentList` (Go), checked against its
natural-language specification.

The repository holds one data structure in two revisions:
  * `src/ConcurrentList.go`          (package `concurrentList`, v1)
  * `src/v2/concurrent_list.go`      (package `v2`, generic)

Both keep an ordered slice `data []T` guarded by one mutex and one
condition variable.  The embedding models the slice as a `List α` and every
operation as a pure function on that list.  Filesystem side effects
(`persistenceCreateFile`, `persistenceDeleteFile`, `ReadDir`/`ReadFile`/
`Unmarshal`) are modelled by an explicit outcome environment plus effect
logs (which file names were written/removed, which errors were handed to
the configured error handler).  The external call `sort.Slice` from Go's
standard library is modelled as a parameter constrained by its documented
contract (`SortSliceOk` below): it permutes the slice and, when `less` is
a strict weak ordering, leaves it sorted; Go's documentation explicitly
does **not** guarantee stability.

`shift`, `Peek`, `DeleteWithFilter`, `GetWithFilter`, `persistenceLoad`
and the wait loop of `GetNext` are line-for-line identical in v1 and v2
(up to v2's generics), so they are embedded once; `Push` (v2 is variadic)
and the constructor (only v2 re-sorts after reconstructing persisted
state) are embedded per revision.
-/

namespace ConcurrentListSpec

/-- The package defines exactly one error sentinel,
`var ErrEmptyList = errors.New("list is empty")` (both v1 and v2).
No other error value is declared anywhere in the package. -/
inductive GoError where
  | errEmptyList
deriving DecidableEq

/-- Outcomes of the filesystem calls issued by the persistence hooks:
`createErr name` is the error (if any) that `persistenceCreateFile` would
report when writing the file called `name` (covering `json.Marshal`,
`os.Create`, `Write`, `Sync`); `removeErr name` is the error (if any) of
`os.Remove` inside `persistenceDeleteFile`. -/
structure PersistEnv where
  createErr : String → Option String
  removeErr : String → Option String

/-- The merged option record (`concurrentListOptions` in
`ConcurrentListOptions.go` and in the v2 options file): an optional
comparator, a persistence flag, the file-name derivation function, and
whether a persistence error handler was supplied.  TTL options are
omitted: no claim about the TTL sweep is settled here. -/
structure Opts (α : Type u) where
  lessFunc : Option (α → α → Bool)
  persistChanges : Bool
  persistFileNameFunc : α → String
  hasErrorHandler : Bool

/-- Go's `sort` documentation demands that `less` be a strict weak
ordering.  Equivalently the complement relation `fun a b => less b a =
false` ("a may come before b") is total and transitive, which is the form
used here. -/
def IsSWO {α : Type u} (less : α → α → Bool) : Prop :=
  (∀ a b, less a b = false ∨ less b a = false) ∧
  (∀ a b c, less b a = false → less c b = false → less c a = false)

/-- Sortedness of a list according to a Go `less` function: no element is
`less` than one that precedes it (`sort.SliceIsSorted` checks the adjacent
instances of this; under a strict weak ordering the two coincide, and the
pairwise form is used here). -/
def SortedBy {α : Type u} (less : α → α → Bool) (l : List α) : Prop :=
  List.Pairwise (fun a b => less b a = false) l

/-- Documented contract of Go's `sort.Slice` (its implementation is
external to this repository): it permutes the slice, and provided `less`
is a strict weak ordering the result is sorted in ascending order as
determined by `less`.  The documentation states "The sort is not
guaranteed to be stable", so nothing more is assumed. -/
def SortSliceOk {α : Type u} (sortSlice : (α → α → Bool) → List α → List α) : Prop :=
  (∀ less l, List.Perm (sortSlice less l) l) ∧
  (∀ less l, IsSWO less → SortedBy less (sortSlice less l))

/-- A concrete function satisfying `SortSliceOk`: Mathlib's (stable)
insertion sort on the complement relation.  Used to discharge contract
hypotheses in witnesses. -/
def sortSliceStable {α : Type u} (less : α → α → Bool) (l : List α) : List α :=
  List.insertionSort (fun a b => less b a = false) l

/-- A second function satisfying `SortSliceOk` that is *not* stable: it
reverses the list before insertion-sorting it, so comparator-equal items
end up in reversed relative order. -/
def sortSliceUnstable {α : Type u} (less : α → α → Bool) (l : List α) : List α :=
  List.insertionSort (fun a b => less b a = false) l.reverse

/-- Result of a `Push` (v1 single item, v2 variadic): the new `data`
slice, the errors passed to `persistErrorHandler`, and the file names
handed to `persistenceCreateFile`.  `Push` has no error result. -/
structure PushResult (α : Type u) where
  data : List α
  handlerCalls : List String
  createCalls : List String

/-- Result of `shift`/`Shift` (identical in v1 and v2): the returned value
(item or `ErrEmptyList`), the new `data` slice, the errors passed to the
handler, and the file names handed to `persistenceDeleteFile`. -/
structure ShiftResult (α : Type u) where
  value : Except GoError α
  data : List α
  handlerCalls : List String
  deleteCalls : List String

/-- Result of `DeleteWithFilter` (identical in v1 and v2): the returned
(matching) items, the new `data` slice, handler calls and issued file
deletions. -/
structure DeleteResult (α : Type u) where
  returned : List α
  data : List α
  handlerCalls : List String
  deleteCalls : List String

/-- Result of a constructor run: the initial `data` slice and the errors
reported to the persistence error handler. -/
structure NewResult (α : Type u) where
  data : List α
  handlerCalls : List String

/-- v1 `Push` (src/ConcurrentList.go lines 90-112): append the item, then,
if a comparator is configured, `sort.Slice` the whole slice; if
persistence is enabled write one file for the item, reporting a failure to
the error handler when one is configured; finally `notEmpty.Signal()`
(synchronization is modelled separately, see `condSignal`). -/
def push (sortSlice : (α → α → Bool) → List α → List α) (opts : Opts α)
    (env : PersistEnv) (data : List α) (item : α) : PushResult α :=
  let appended := data ++ [item]
  let sorted :=
    match opts.lessFunc with
    | some less => sortSlice less appended
    | none => appended
  if opts.persistChanges then
    let name := opts.persistFileNameFunc item
    match env.createErr name with
    | some e => ⟨sorted, if opts.hasErrorHandler then [e] else [], [name]⟩
    | none => ⟨sorted, [], [name]⟩
  else
    ⟨sorted, [], []⟩

/-- The persistence loop of v2 `Push` (src/v2/concurrent_list.go lines
106-113): `for _, item := range items` create one file per pushed item,
reporting each failure to the handler when one is configured.  Returns
(handler calls, issued file creations). -/
def pushPersistPass (opts : Opts α) (env : PersistEnv) : List α → List String × List String
  | [] => ([], [])
  | item :: rest =>
    let name := opts.persistFileNameFunc item
    let (hs, ds) := pushPersistPass opts env rest
    match env.createErr name with
    | some e => ((if opts.hasErrorHandler then [e] else []) ++ hs, name :: ds)
    | none => (hs, name :: ds)

/-- v2 `Push` (src/v2/concurrent_list.go lines 94-116): append all items,
then, if a comparator is configured, `sort.Slice` the whole slice; if
persistence is enabled write one file per appended item; finally
`notEmpty.Signal()`. -/
def pushV2 (sortSlice : (α → α → Bool) → List α → List α) (opts : Opts α)
    (env : PersistEnv) (data : List α) (items : List α) : PushResult α :=
  let appended := data ++ items
  let sorted :=
    match opts.lessFunc with
    | some less => sortSlice less appended
    | none => appended
  if opts.persistChanges then
    let (hs, cs) := pushPersistPass opts env items
    ⟨sorted, hs, cs⟩
  else
    ⟨sorted, [], []⟩

/-- `shift` (src/ConcurrentList.go lines 235-254, src/v2/concurrent_list.go
lines 241-259), the body of `Shift` once the lock is held: on an empty
slice return `ErrEmptyList`; otherwise take `data[0]`, keep `data[1:]`,
and if persistence is enabled delete the item's file, reporting a failure
to the handler when one is configured. -/
def shift (opts : Opts α) (env : PersistEnv) (data : List α) : ShiftResult α :=
  match data with
  | [] => ⟨.error .errEmptyList, [], [], []⟩
  | firstElement :: rest =>
    if opts.persistChanges then
      let name := opts.persistFileNameFunc firstElement
      match env.removeErr name with
      | some e => ⟨.ok firstElement, rest, if opts.hasErrorHandler then [e] else [], [name]⟩
      | none => ⟨.ok firstElement, rest, [], [name]⟩
    else
      ⟨.ok firstElement, rest, [], []⟩

/-- The partition loop of `DeleteWithFilter` (src/ConcurrentList.go lines
194-202, v2 lines 200-208): one pass over `data` appending each item to
`nonFilteredItems` or `filteredItems`.  Returns
(`nonFilteredItems`, `filteredItems`). -/
def deleteLoop (p : α → Bool) : List α → List α × List α
  | [] => ([], [])
  | item :: rest =>
    let (nonFiltered, filtered) := deleteLoop p rest
    if !(p item) then (item :: nonFiltered, filtered) else (nonFiltered, item :: filtered)

/-- The persistence pass of `DeleteWithFilter` (src/ConcurrentList.go
lines 205-212, v2 lines 211-218): for each filtered item delete its file,
reporting failures to the handler when one is configured.  Returns
(handler calls, issued deletions). -/
def deletePersistPass (opts : Opts α) (env : PersistEnv) : List α → List String × List String
  | [] => ([], [])
  | item :: rest =>
    let name := opts.persistFileNameFunc item
    let (hs, ds) := deletePersistPass opts env rest
    match env.removeErr name with
    | some e => ((if opts.hasErrorHandler then [e] else []) ++ hs, name :: ds)
    | none => (hs, name :: ds)

/-- `DeleteWithFilter` (src/ConcurrentList.go lines 190-219, v2 lines
196-225): partition `data` by the predicate, delete the files of the
filtered items when persistence is enabled, keep the non-filtered items,
return the filtered ones. -/
def deleteWithFilter (opts : Opts α) (env : PersistEnv) (data : List α)
    (p : α → Bool) : DeleteResult α :=
  let (nonFilteredItems, filteredItems) := deleteLoop p data
  let (hs, ds) :=
    if opts.persistChanges then deletePersistPass opts env filteredItems else ([], [])
  ⟨filteredItems, nonFilteredItems, hs, ds⟩

/-- The loop of `persistenceLoad` (src/ConcurrentList.go lines 262-273, v2
lines 267-279): for each directory entry, read and unmarshal it; on the
first failure return that error immediately, leaving every previously
decoded item already appended to `data`.  A directory entry is modelled by
the combined outcome of its `ReadFile` + `Unmarshal`: either a decoded
item or an error. -/
def loadLoop (data : List α) : List (Except String α) → List α × Option String
  | [] => (data, none)
  | .ok item :: rest => loadLoop (data ++ [item]) rest
  | .error e :: _ => (data, some e)

/-- `persistenceLoad` (src/ConcurrentList.go lines 256-277, v2 lines
261-282): list the persistence directory (which may itself fail), then run
the decode loop.  `records` is the outcome of `ReadDir`: an error, or the
per-file decode outcomes in enumeration order. -/
def persistenceLoad (records : Except String (List (Except String α)))
    (data : List α) : List α × Option String :=
  match records with
  | .error e => (data, some e)
  | .ok rs => loadLoop data rs

/-- v1 `NewConcurrentList` (src/ConcurrentList.go lines 42-87): start from
an empty slice; if persistence is enabled run `persistenceLoad` and report
a load error to the handler when one is configured.  v1 does **not**
re-sort after loading.  (The TTL goroutine is outside this state model.) -/
def newConcurrentList (opts : Opts α)
    (records : Except String (List (Except String α))) : NewResult α :=
  if opts.persistChanges then
    let (d, errOpt) := persistenceLoad records []
    ⟨d, match errOpt with
        | some e => if opts.hasErrorHandler then [e] else []
        | none => []⟩
  else
    ⟨[], []⟩

/-- v2 `NewConcurrentList` (src/v2/concurrent_list.go lines 41-92): as in
v1, but after `persistenceLoad` (and its error handling), if a comparator
is configured the loaded slice is re-sorted with `sort.Slice`. -/
def newConcurrentListV2 (sortSlice : (α → α → Bool) → List α → List α)
    (opts : Opts α) (records : Except String (List (Except String α))) : NewResult α :=
  if opts.persistChanges then
    let (d, errOpt) := persistenceLoad records []
    let handled : List String :=
      match errOpt with
      | some e => if opts.hasErrorHandler then [e] else []
      | none => []
    let d2 :=
      match opts.lessFunc with
      | some less => sortSlice less d
      | none => d
    ⟨d2, handled⟩
  else
    ⟨[], []⟩

/-- Outcome of one evaluation of `GetNext`'s wait loop with the lock held:
either the call returns (a value or `ErrEmptyList`, with the resulting
`data` slice), or the goroutine suspends in `notEmpty.Wait()`. -/
inductive LoopOutcome (α : Type u) where
  | ret (value : Except GoError α) (data : List α)
  | wait

/-- One evaluation of the wait loop of `GetNext`
(src/ConcurrentList.go lines 146-164, src/v2/concurrent_list.go lines
151-170), given whether `ctx.Err() != nil` at this evaluation:
`for len(l.data) == 0 || ctx.Err() != nil { if ctx.Err() != nil { return
nil, ErrEmptyList }; l.notEmpty.Wait() }` followed by `l.shift()`.
This is the complete decision logic of the call: every return path of
`GetNext` goes through it. -/
def getNextLoopStep (opts : Opts α) (env : PersistEnv) (ctxErr : Bool)
    (data : List α) : LoopOutcome α :=
  if data.length == 0 || ctxErr then
    if ctxErr then
      .ret (.error .errEmptyList) data
    else
      .wait
  else
    let r := shift opts env data
    .ret r.value r.data

/-- The FIFO queue of goroutines blocked in `notEmpty.Wait()`.  Go's
`sync.Cond.Signal` "wakes one goroutine waiting on c" — the runtime's
notify list wakes the goroutine that has waited longest — and `Broadcast`
wakes all of them.  `condSignal`/`condBroadcast` return (woken goroutines,
goroutines still waiting). -/
def condSignal (waiters : List Nat) : List Nat × List Nat :=
  (waiters.take 1, waiters.drop 1)

/-- `sync.Cond.Broadcast`: wakes all waiting goroutines. -/
def condBroadcast (waiters : List Nat) : List Nat × List Nat :=
  (waiters, [])

/-- The wake issued by `GetNext`'s cancellation watcher goroutine when the
context expires: the source executes `l.notEmpty.Signal()`
(src/ConcurrentList.go line 150, src/v2/concurrent_list.go line 155). -/
def cancelWake (waiters : List Nat) : List Nat × List Nat :=
  condSignal waiters


/-- Modelled from the spec: the wake demanded by the specification for a
firing cancellation, which "must wake **all** currently-waiting threads
(broadcast)". -/
def cancelWakeSpec (waiters : List Nat) : List Nat × List Nat :=
  condBroadcast waiters

/-- An environment in which every filesystem call succeeds. -/
def envOk : PersistEnv :=
  ⟨fun _ => none, fun _ => none⟩

/-- A concrete comparator on naturals, used in witnesses and
counterexamples. -/
def lessNat (a b : Nat) : Bool :=
  decide (a < b)

/-- A concrete comparator on pairs that compares only the first component,
so pairs with equal first components are comparator-equal (ties). -/
def lessFst (a b : Nat × Nat) : Bool :=
  decide (a.1 < b.1)

/-- Fold a sequence of v1 `Push` calls over the `data` slice (the caller
pushes the items one after the other). -/
def pushAll (sortSlice : (α → α → Bool) → List α → List α) (opts : Opts α)
    (env : PersistEnv) (data : List α) : List α → List α
  | [] => data
  | x :: xs => pushAll sortSlice opts env (push sortSlice opts env data x).data xs

/-- The sequence of items returned by calling `Shift` repeatedly (at most
`fuel` times, stopping at the first `ErrEmptyList`). -/
def drainAux (opts : Opts α) (env : PersistEnv) : Nat → List α → List α
  | 0, _ => []
  | fuel + 1, data =>
    let r := shift opts env data
    match r.value with
    | .error _ => []
    | .ok v => v :: drainAux opts env fuel r.data

/-- Formalization of C10's "records processed before the failure": the
decoded items of the all-ok front segment of the enumeration, in order. -/
def decodedBeforeFailure : List (Except String α) → List α
  | [] => []
  | .ok item :: rest => item :: decodedBeforeFailure rest
  | .error _ :: _ => []

/-- The error of the first failing record of the enumeration, if any. -/
def firstFailure : List (Except String α) → Option String
  | [] => none
  | .ok _ :: rest => firstFailure rest
  | .error e :: _ => some e

/-! ### Helper lemmas -/

/-- Under a strict weak ordering, insertion sort on the complement
relation produces a `SortedBy` list. -/
theorem insertionSort_sortedBy {α : Type u} (less : α → α → Bool) (hswo : IsSWO less)
    (l : List α) : SortedBy less (List.insertionSort (fun a b => less b a = false) l) := by
  haveI : IsTotal α (fun a b => less b a = false) := ⟨fun a b => (hswo.1 a b).symm⟩
  haveI : IsTrans α (fun a b => less b a = false) :=
    ⟨fun a b c hab hbc => hswo.2 a b c hab hbc⟩
  exact List.sorted_insertionSort _ l

/-- `sortSliceStable` satisfies the documented `sort.Slice` contract. -/
theorem sortSliceStable_ok {α : Type u} : SortSliceOk (sortSliceStable (α := α)) :=
  ⟨fun _ l => List.perm_insertionSort _ l,
   fun less l hswo => insertionSort_sortedBy less hswo l⟩

/-- `sortSliceUnstable` also satisfies the documented `sort.Slice`
contract (it sorts and permutes), although it reorders comparator-equal
items. -/
theorem sortSliceUnstable_ok {α : Type u} : SortSliceOk (sortSliceUnstable (α := α)) :=
  ⟨fun _ l => (List.perm_insertionSort _ l.reverse).trans (List.reverse_perm l),
   fun less l hswo => insertionSort_sortedBy less hswo l.reverse⟩

/-- `lessNat` is a strict weak ordering. -/
theorem isSWO_lessNat : IsSWO lessNat := by
  constructor
  · intro a b
    simp only [lessNat, decide_eq_false_iff_not]
    omega
  · intro a b c
    simp only [lessNat, decide_eq_false_iff_not]
    omega

/-- `lessFst` is a strict weak ordering (with genuine ties). -/
theorem isSWO_lessFst : IsSWO lessFst := by
  constructor
  · intro a b
    simp only [lessFst, decide_eq_false_iff_not]
    omega
  · intro a b c
    simp only [lessFst, decide_eq_false_iff_not]
    omega

/-- The `data` slice produced by v1 `Push` does not depend on the
persistence outcome: it is the appended (and, with a comparator, sorted)
slice. -/
theorem push_data (sortSlice : (α → α → Bool) → List α → List α) (opts : Opts α)
    (env : PersistEnv) (data : List α) (item : α) :
    (push sortSlice opts env data item).data =
      match opts.lessFunc with
      | some less => sortSlice less (data ++ [item])
      | none => data ++ [item] := by
  unfold push
  cases hc : opts.persistChanges
  · simp
  · cases hr : env.createErr (opts.persistFileNameFunc item) <;> simp [hr]

/-- The `data` slice produced by v2 `Push`, likewise. -/
theorem pushV2_data (sortSlice : (α → α → Bool) → List α → List α) (opts : Opts α)
    (env : PersistEnv) (data items : List α) :
    (pushV2 sortSlice opts env data items).data =
      match opts.lessFunc with
      | some less => sortSlice less (data ++ items)
      | none => data ++ items := by
  unfold pushV2
  cases hc : opts.persistChanges
  · simp
  · simp

/-- `shift` on a non-empty slice returns the front item and keeps the
tail, whatever the persistence outcome. -/
theorem shift_cons (opts : Opts α) (env : PersistEnv) (x : α) (rest : List α) :
    (shift opts env (x :: rest)).value = .ok x ∧
    (shift opts env (x :: rest)).data = rest := by
  unfold shift
  cases hc : opts.persistChanges
  · simp
  · cases hr : env.removeErr (opts.persistFileNameFunc x) <;> simp [hr]

/-- Without a comparator, a sequence of v1 pushes appends the items in
order. -/
theorem pushAll_data_noComparator (sortSlice : (α → α → Bool) → List α → List α)
    (pc hh : Bool) (nameF : α → String) (env : PersistEnv) :
    ∀ (xs data : List α), pushAll sortSlice ⟨none, pc, nameF, hh⟩ env data xs = data ++ xs := by
  intro xs
  induction xs with
  | nil => intro data; simp [pushAll]
  | cons x xs ih =>
    intro data
    rw [pushAll, push_data]
    rw [ih]
    simp

/-- Draining a list of length `n` with `n` shifts returns exactly the
list. -/
theorem drainAux_eq_data (opts : Opts α) (env : PersistEnv) :
    ∀ data : List α, drainAux opts env data.length data = data := by
  intro data
  induction data with
  | nil => rfl
  | cons x rest ih =>
    simp only [List.length_cons, drainAux, (shift_cons opts env x rest).1,
      (shift_cons opts env x rest).2]
    rw [ih]

/-- The partition loop returns exactly the non-matching and matching
items, each in original order. -/
theorem deleteLoop_eq (p : α → Bool) :
    ∀ data : List α, deleteLoop p data = (data.filter (fun x => !p x), data.filter p) := by
  intro data
  induction data with
  | nil => rfl
  | cons x rest ih =>
    simp only [deleteLoop, ih]
    cases hp : p x <;> simp [List.filter, hp]

/-- The persistence pass of `DeleteWithFilter` issues exactly one file
deletion per item, and hands exactly the failing deletions to the handler
when one is configured. -/
theorem deletePersistPass_eq (opts : Opts α) (env : PersistEnv) :
    ∀ l : List α,
      (deletePersistPass opts env l).1 =
        (if opts.hasErrorHandler then
          l.filterMap (fun item => env.removeErr (opts.persistFileNameFunc item))
        else []) ∧
      (deletePersistPass opts env l).2 = l.map opts.persistFileNameFunc := by
  intro l
  induction l with
  | nil => cases hh : opts.hasErrorHandler <;> simp [deletePersistPass]
  | cons item rest ih =>
    cases hr : env.removeErr (opts.persistFileNameFunc item) <;>
      cases hh : opts.hasErrorHandler <;>
      simp_all [deletePersistPass, hr, hh, List.filterMap_cons]

/-- The persistence pass of v2 `Push` issues exactly one file creation per
item, and hands exactly the failing creations to the handler when one is
configured. -/
theorem pushPersistPass_eq (opts : Opts α) (env : PersistEnv) :
    ∀ l : List α,
      (pushPersistPass opts env l).1 =
        (if opts.hasErrorHandler then
          l.filterMap (fun item => env.createErr (opts.persistFileNameFunc item))
        else []) ∧
      (pushPersistPass opts env l).2 = l.map opts.persistFileNameFunc := by
  intro l
  induction l with
  | nil => cases hh : opts.hasErrorHandler <;> simp [pushPersistPass]
  | cons item rest ih =>
    cases hr : env.createErr (opts.persistFileNameFunc item) <;>
      cases hh : opts.hasErrorHandler <;>
      simp_all [pushPersistPass, hr, hh, List.filterMap_cons]

/-- The load loop appends exactly the records decoded before the first
failure and reports that first failure. -/
theorem loadLoop_eq :
    ∀ (rs : List (Except String α)) (data : List α),
      loadLoop data rs = (data ++ decodedBeforeFailure rs, firstFailure rs) := by
  intro rs
  induction rs with
  | nil => intro data; simp [loadLoop, decodedBeforeFailure, firstFailure]
  | cons r rest ih =>
    intro data
    cases r with
    | ok item => simp [loadLoop, decodedBeforeFailure, firstFailure, ih]
    | error e => simp [loadLoop, decodedBeforeFailure, firstFailure]

/-! ### Claim theorems -/

/-- C1 (counterexample): a `GetNext` whose cancellation has already fired
at entry (`ctx.Err() != nil`) on an empty list returns the very same
`ErrEmptyList` sentinel that `Shift` returns on an empty list.  The
package defines no other error value, so the error returned for an
abandoned wait is not distinct from the empty-list error, contrary to the
claim. -/
theorem c1_cancel_error_equals_emptyList_error :
    getNextLoopStep ⟨none, false, fun _ => "", false⟩ envOk true ([] : List Nat)
        = .ret (.error .errEmptyList) [] ∧
    (shift ⟨none, false, fun _ => "", false⟩ envOk ([] : List Nat)).value
        = .error .errEmptyList ∧
    ¬ (∀ e : GoError,
        getNextLoopStep ⟨none, false, fun _ => "", false⟩ envOk true ([] : List Nat)
          = .ret (.error e) [] → e ≠ .errEmptyList) :=
  ⟨rfl, rfl, fun h => h .errEmptyList rfl rfl⟩

/-- C1 (amended): whenever the cancellation has fired (`ctx.Err() != nil`)
before an item was obtained — including when it is already triggered at
entry — `GetNext` fails with `ErrEmptyList`, the same (and only) error
sentinel used for empty-list reads, and the data slice is untouched.  No
distinct `Cancelled` error kind exists in the code. -/
theorem c1_amended_cancel_returns_errEmptyList (opts : Opts α) (env : PersistEnv)
    (data : List α) :
    getNextLoopStep opts env true data = .ret (.error .errEmptyList) data := by
  simp [getNextLoopStep]

/-- C2: the cancellation wake is `Signal`, not `Broadcast`.  With an empty
list and two blocked goroutines — goroutine 0 waiting longest with a live
context, goroutine 1 with its context cancelled — the watcher's `Signal`
wakes only goroutine 0; goroutine 0 re-checks its loop condition (list
empty, own context live) and suspends again (`.wait`), so the wake is
absorbed by an unrelated waiter and the cancelled goroutine 1 is never
woken; the broadcast demanded by the spec would wake both. -/
theorem c2_cancel_signal_absorbed :
    (cancelWake [0, 1]).1 = [0] ∧
    ((cancelWake [0, 1]).1.contains 1) = false ∧
    (cancelWakeSpec [0, 1]).1 = [0, 1] ∧
    getNextLoopStep ⟨none, false, fun _ => "", false⟩ envOk false ([] : List Nat) = .wait :=
  ⟨rfl, rfl, rfl, rfl⟩

/-- C3: with a comparator configured, immediately after any `Push` (v1
single-item and v2 variadic) the data slice is sorted according to the
comparator — for any prior data slice, any persistence configuration and
any persistence outcome — given that the comparator is the strict weak
ordering Go's sort documentation requires and that `sort.Slice` meets its
documented contract. -/
theorem c3_push_sorted (sortSlice : (α → α → Bool) → List α → List α)
    (hok : SortSliceOk sortSlice) (less : α → α → Bool) (hswo : IsSWO less)
    (pc hh : Bool) (nameF : α → String) (env : PersistEnv)
    (data : List α) (item : α) (items : List α) :
    SortedBy less (push sortSlice ⟨some less, pc, nameF, hh⟩ env data item).data ∧
    SortedBy less (pushV2 sortSlice ⟨some less, pc, nameF, hh⟩ env data items).data := by
  constructor
  · rw [push_data]
    exact hok.2 less (data ++ [item]) hswo
  · rw [pushV2_data]
    exact hok.2 less (data ++ items) hswo

/-- C3 (witness): a concrete instantiation — the verified stable
insertion sort as the `sort.Slice` implementation, the natural-number
comparator, a concrete unsorted prior slice. -/
theorem c3_push_sorted_witness :
    SortSliceOk (sortSliceStable (α := Nat)) ∧ IsSWO lessNat ∧
    SortedBy lessNat
      (push sortSliceStable ⟨some lessNat, false, fun _ => "", false⟩ envOk [2, 1] 0).data :=
  ⟨sortSliceStable_ok, isSWO_lessNat,
    (c3_push_sorted sortSliceStable sortSliceStable_ok lessNat isSWO_lessNat false false
      (fun _ => "") envOk [2, 1] 0 []).1⟩

/-- C4 (counterexample): v1's constructor with persistence enabled and a
comparator configured, against records that decode to 2 and then 1 in
enumeration order, returns the slice [2, 1] as loaded — the comparator is
never applied after reconstruction, so the returned collection is not
sorted. -/
theorem c4_v1_constructor_not_sorted :
    (newConcurrentList ⟨some lessNat, true, fun _ => "", false⟩
        (.ok [.ok 2, .ok 1])).data = [2, 1] ∧
    ¬ SortedBy lessNat
        (newConcurrentList ⟨some lessNat, true, fun _ => "", false⟩
          (.ok [.ok 2, .ok 1])).data := by
  refine ⟨rfl, ?_⟩
  have h : (newConcurrentList ⟨some lessNat, true, fun _ => "", false⟩
      (.ok [.ok 2, .ok 1])).data = [2, 1] := rfl
  rw [h]
  simp [SortedBy, lessNat]

/-- C4 (amended): only the v2 constructor applies the comparator after
reconstructing persisted state; under the sort contract and a
strict-weak-order comparator its returned collection is sorted regardless
of the enumeration order of the durable records.  The v1 constructor
performs no sort after loading (see the counterexample). -/
theorem c4_amended_v2_constructor_sorted (sortSlice : (α → α → Bool) → List α → List α)
    (hok : SortSliceOk sortSlice) (less : α → α → Bool) (hswo : IsSWO less)
    (nameF : α → String) (hh : Bool)
    (records : Except String (List (Except String α))) :
    SortedBy less (newConcurrentListV2 sortSlice ⟨some less, true, nameF, hh⟩ records).data := by
  have hdata : (newConcurrentListV2 sortSlice ⟨some less, true, nameF, hh⟩ records).data
      = sortSlice less (persistenceLoad records ([] : List α)).1 := by
    unfold newConcurrentListV2
    rcases hpl : persistenceLoad records ([] : List α) with ⟨d, errOpt⟩
    cases errOpt <;> simp [hpl]
  rw [hdata]
  exact hok.2 less _ hswo

/-- C4 (witness): concrete instantiation of the amended claim — the
records decode to 2 then 1, and the v2 constructor returns them sorted. -/
theorem c4_amended_witness :
    SortSliceOk (sortSliceStable (α := Nat)) ∧ IsSWO lessNat ∧
    SortedBy lessNat
      (newConcurrentListV2 sortSliceStable ⟨some lessNat, true, fun _ => "", false⟩
        (.ok [.ok 2, .ok 1])).data :=
  ⟨sortSliceStable_ok, isSWO_lessNat,
    c4_amended_v2_constructor_sorted sortSliceStable sortSliceStable_ok lessNat isSWO_lessNat
      (fun _ => "") false (.ok [.ok 2, .ok 1])⟩

/-- C5 (counterexample): the code's re-sort is `sort.Slice`, whose
documented contract does not guarantee stability.  `sortSliceUnstable`
satisfies that contract; the pairs (1, 10) and (1, 20) are
comparator-equal under `lessFst` (neither is less than the other); yet
pushing (2, 0) onto [(1, 10), (1, 20)] re-sorts the slice to
[(1, 20), (1, 10), (2, 0)] — the tied items do not keep their prior
relative order, refuting the claimed stability guarantee. -/
theorem c5_resort_not_stable :
    SortSliceOk (sortSliceUnstable (α := Nat × Nat)) ∧
    lessFst (1, 10) (1, 20) = false ∧
    lessFst (1, 20) (1, 10) = false ∧
    (push sortSliceUnstable ⟨some lessFst, false, fun _ => "", false⟩ envOk
        [(1, 10), (1, 20)] (2, 0)).data = [(1, 20), (1, 10), (2, 0)] ∧
    (push sortSliceUnstable ⟨some lessFst, false, fun _ => "", false⟩ envOk
        [(1, 10), (1, 20)] (2, 0)).data ≠ [(1, 10), (1, 20), (2, 0)] :=
  ⟨sortSliceUnstable_ok, rfl, rfl, by decide, by decide⟩

/-- C5 (amended): with a comparator configured, the `Push` re-sort of the
entire sequence produces a comparator-sorted permutation of the appended
sequence, passing the caller's comparator through with no additional
tie-break; stability is not guaranteed (`sort.Slice` is documented as
unstable), so comparator-equal items may be reordered. -/
theorem c5_amended_resort_sorted_perm (sortSlice : (α → α → Bool) → List α → List α)
    (hok : SortSliceOk sortSlice) (less : α → α → Bool) (hswo : IsSWO less)
    (pc hh : Bool) (nameF : α → String) (env : PersistEnv)
    (data : List α) (item : α) (items : List α) :
    ((push sortSlice ⟨some less, pc, nameF, hh⟩ env data item).data).Perm (data ++ [item]) ∧
    SortedBy less (push sortSlice ⟨some less, pc, nameF, hh⟩ env data item).data ∧
    ((pushV2 sortSlice ⟨some less, pc, nameF, hh⟩ env data items).data).Perm (data ++ items) ∧
    SortedBy less (pushV2 sortSlice ⟨some less, pc, nameF, hh⟩ env data items).data := by
  refine ⟨?_, ?_, ?_, ?_⟩
  · rw [push_data]
    exact hok.1 less (data ++ [item])
  · rw [push_data]
    exact hok.2 less (data ++ [item]) hswo
  · rw [pushV2_data]
    exact hok.1 less (data ++ items)
  · rw [pushV2_data]
    exact hok.2 less (data ++ items) hswo

/-- C5 (witness): concrete instantiation of the amended claim with the
pair comparator and a genuine tie. -/
theorem c5_amended_witness :
    SortSliceOk (sortSliceStable (α := Nat × Nat)) ∧ IsSWO lessFst ∧
    ((push sortSliceStable ⟨some lessFst, false, fun _ => "", false⟩ envOk
        [(1, 10), (1, 20)] (2, 0)).data).Perm [(1, 10), (1, 20), (2, 0)] ∧
    SortedBy lessFst
      (push sortSliceStable ⟨some lessFst, false, fun _ => "", false⟩ envOk
        [(1, 10), (1, 20)] (2, 0)).data :=
  ⟨sortSliceStable_ok, isSWO_lessFst,
    (c5_amended_resort_sorted_perm sortSliceStable sortSliceStable_ok lessFst isSWO_lessFst
      false false (fun _ => "") envOk [(1, 10), (1, 20)] (2, 0) []).1,
    (c5_amended_resort_sorted_perm sortSliceStable sortSliceStable_ok lessFst isSWO_lessFst
      false false (fun _ => "") envOk [(1, 10), (1, 20)] (2, 0) []).2.1⟩

/-- C6: FIFO — with no comparator configured, pushing the items of `xs`
one at a time (v1 `Push`) onto an empty list appends them in order, and
shifting repeatedly then returns exactly `xs` in push order, for any
persistence configuration and any persistence outcome. -/
theorem c6_fifo (sortSlice : (α → α → Bool) → List α → List α)
    (pc hh : Bool) (nameF : α → String) (env : PersistEnv) (xs : List α) :
    pushAll sortSlice ⟨none, pc, nameF, hh⟩ env [] xs = xs ∧
    drainAux ⟨none, pc, nameF, hh⟩ env xs.length
      (pushAll sortSlice ⟨none, pc, nameF, hh⟩ env [] xs) = xs := by
  have h : pushAll sortSlice ⟨none, pc, nameF, hh⟩ env [] xs = xs := by
    rw [pushAll_data_noComparator]
    simp
  refine ⟨h, ?_⟩
  rw [h]
  exact drainAux_eq_data _ env xs

/-- C7: `Shift` fails with `ErrEmptyList` exactly on the empty list
(leaving it empty); on a non-empty list it returns the item at index 0 and
removes exactly that item, leaving the remaining items in order — for any
persistence configuration and any persistence outcome. -/
theorem c7_shift_front (opts : Opts α) (env : PersistEnv) (x : α) (rest : List α) :
    (shift opts env ([] : List α)).value = .error .errEmptyList ∧
    (shift opts env ([] : List α)).data = [] ∧
    (shift opts env (x :: rest)).value = .ok x ∧
    (shift opts env (x :: rest)).data = rest :=
  ⟨rfl, rfl, (shift_cons opts env x rest).1, (shift_cons opts env x rest).2⟩

/-- C8: `Push` never fails from the caller's perspective — it has no error
result, and for every persistence outcome (including a failing write) the
item(s) end up in the slice (the new slice is a permutation of the
appended one, and equal to it without a comparator); a write error is
passed to the error handler exactly when persistence is enabled and a
handler is configured, and is dropped otherwise. -/
theorem c8_push_never_fails (sortSlice : (α → α → Bool) → List α → List α)
    (hok : SortSliceOk sortSlice) (opts : Opts α) (env : PersistEnv)
    (data : List α) (item : α) (items : List α) :
    ((push sortSlice opts env data item).data).Perm (data ++ [item]) ∧
    (push sortSlice opts env data item).handlerCalls =
      (if opts.persistChanges then
        (if opts.hasErrorHandler then
          (env.createErr (opts.persistFileNameFunc item)).toList
        else [])
      else []) ∧
    ((pushV2 sortSlice opts env data items).data).Perm (data ++ items) ∧
    (pushV2 sortSlice opts env data items).handlerCalls =
      (if opts.persistChanges then
        (if opts.hasErrorHandler then
          items.filterMap (fun it => env.createErr (opts.persistFileNameFunc it))
        else [])
      else []) := by
  refine ⟨?_, ?_, ?_, ?_⟩
  · rw [push_data]
    cases hl : opts.lessFunc with
    | some less => exact hok.1 less (data ++ [item])
    | none => exact List.Perm.refl _
  · unfold push
    cases hc : opts.persistChanges <;>
      cases hr : env.createErr (opts.persistFileNameFunc item) <;>
      cases hh : opts.hasErrorHandler <;>
      simp [hr, hh, hc]
  · rw [pushV2_data]
    cases hl : opts.lessFunc with
    | some less => exact hok.1 less (data ++ items)
    | none => exact List.Perm.refl _
  · unfold pushV2
    cases hc : opts.persistChanges
    · simp
    · rcases hpp : pushPersistPass opts env items with ⟨hs, cs⟩
      have h1 := (pushPersistPass_eq opts env items).1
      rw [hpp] at h1
      simp only at h1
      simp [hpp, h1]

/-- C8 (witness): concrete instantiation — persistence enabled, the write
fails, no handler is configured: the item is still appended and the error
appears nowhere. -/
theorem c8_push_never_fails_witness :
    SortSliceOk (sortSliceStable (α := Nat)) ∧
    ((push sortSliceStable ⟨some lessNat, true, fun _ => "f", false⟩
        ⟨fun _ => some "boom", fun _ => none⟩ [2, 1] 0).data).Perm [2, 1, 0] ∧
    (push sortSliceStable ⟨some lessNat, true, fun _ => "f", false⟩
        ⟨fun _ => some "boom", fun _ => none⟩ [2, 1] 0).handlerCalls = [] :=
  ⟨sortSliceStable_ok,
    (c8_push_never_fails sortSliceStable sortSliceStable_ok
      ⟨some lessNat, true, fun _ => "f", false⟩ ⟨fun _ => some "boom", fun _ => none⟩
      [2, 1] 0 []).1,
    (c8_push_never_fails sortSliceStable sortSliceStable_ok
      ⟨some lessNat, true, fun _ => "f", false⟩ ⟨fun _ => some "boom", fun _ => none⟩
      [2, 1] 0 []).2.1⟩

/-- C9: `DeleteWithFilter` partitions the sequence: it returns exactly the
items matching the predicate, retains exactly the non-matching ones (each
in original order), and, when persistence is enabled, issues exactly one
durable-record deletion per matching (returned) item — none otherwise. -/
theorem c9_deleteWithFilter_partitions (opts : Opts α) (env : PersistEnv)
    (data : List α) (p : α → Bool) :
    (deleteWithFilter opts env data p).returned = data.filter p ∧
    (deleteWithFilter opts env data p).data = data.filter (fun x => !p x) ∧
    (deleteWithFilter opts env data p).deleteCalls =
      (if opts.persistChanges then (data.filter p).map opts.persistFileNameFunc else []) := by
  unfold deleteWithFilter
  rw [deleteLoop_eq]
  cases hc : opts.persistChanges
  · simp
  · rcases hdp : deletePersistPass opts env (data.filter p) with ⟨hs, ds⟩
    have h2 := (deletePersistPass_eq opts env (data.filter p)).2
    rw [hdp] at h2
    simp only at h2
    simp [hdp, h2]

/-- C10: `persistenceLoad` stops at the first failing record and returns
its error, but every record decoded before the failure has already been
appended to the in-memory slice and is retained; the v1 constructor
reports the error to the handler exactly when one is configured and still
returns the collection holding this partial run of decoded items —
reconstruction is not atomic with respect to load errors. -/
theorem c10_load_keeps_decoded (lessOpt : Option (α → α → Bool))
    (nameF : α → String) (hh : Bool) (rs : List (Except String α)) :
    persistenceLoad (.ok rs) ([] : List α)
        = (decodedBeforeFailure rs, firstFailure rs) ∧
    (newConcurrentList ⟨lessOpt, true, nameF, hh⟩ (.ok rs)).data = decodedBeforeFailure rs ∧
    (newConcurrentList ⟨lessOpt, true, nameF, hh⟩ (.ok rs)).handlerCalls =
      (match firstFailure rs with
       | some e => if hh then [e] else []
       | none => []) := by
  have h : persistenceLoad (.ok rs) ([] : List α)
      = (decodedBeforeFailure rs, firstFailure rs) := by
    simpa [persistenceLoad] using loadLoop_eq rs []
  refine ⟨h, ?_, ?_⟩ <;>
    · unfold newConcurrentList
      rw [h]
      simp

end ConcurrentListSpec
